import Mathlib

/-!
Verification of `analyze_pos.py`, a single-file report tool that scans three
directory trees of word-definition JSON files, tabulates the `partOfSpeech`
field, and prints frequency tables, example words and cross-project
comparisons.

The embedding models the Python values the script manipulates (`PyVal`), the
exceptions it can raise (`PyExc`), the per-project scan (`analyze_project`,
lines 20-52 of the source), the aggregation loop of `main` (lines 62-79), and
the report sections of `main` (lines 82-188).  Filesystem access is abstracted
as the list of file outcomes `rglob` + `open` + `json.load` would produce:
each file is a path together with either the parsed JSON value or the
exception raised while opening/decoding it.
-/

namespace AnalyzePos

/-- Kinds of Python exception relevant to the script.  `open` can raise
`FileNotFoundError` or `PermissionError` (and other `OSError`s, which behave
like `permissionError` here); `json.load` can raise `json.JSONDecodeError` or,
for files whose bytes are not valid UTF-8, `UnicodeDecodeError` (which is a
`ValueError` but not a `JSONDecodeError`); attribute access on a value lacking
the attribute raises `AttributeError`; iterating a non-iterable or putting an
unhashable value into a set raises `TypeError`; indexing an empty list raises
`IndexError`. -/
inductive PyExc where
  | jsonDecodeError
  | fileNotFoundError
  | keyError
  | attributeError
  | typeError
  | indexError
  | unicodeDecodeError
  | permissionError
deriving DecidableEq, Repr

/-- The exception kinds caught by the per-file handler at line 48 of the
source: `except (json.JSONDecodeError, FileNotFoundError, KeyError)`. -/
def caughtByFileHandler : PyExc → Bool
  | .jsonDecodeError => true
  | .fileNotFoundError => true
  | .keyError => true
  | _ => false

/-- Python values as produced by `json.load` and manipulated by the script.
JSON numbers are modelled as integers (no claim involves non-integer
numerics). -/
inductive PyVal where
  | none
  | bool (b : Bool)
  | str (s : String)
  | num (n : Int)
  | list (xs : List PyVal)
  | dict (kvs : List (String × PyVal))
deriving Repr

/-! ### String utilities with Python semantics

Lean's built-in `String` order and `String.endsWith` do not reduce well inside
the kernel, so the Python string operations the script uses are written out on
character lists: lexicographic comparison by code point (the order `sorted`
uses on `str`), substring containment (`in`), suffix test (`endswith`),
whitespace stripping (`strip`) and ASCII lowercasing (`lower`; the script only
ever lowercases ASCII part-of-speech names, so the non-ASCII cases of Python's
`str.lower` are out of scope). -/

/-- Lexicographic `≤` on code-point lists, as Python compares strings. -/
def listLeB : List Char → List Char → Bool
  | [], _ => true
  | _ :: _, [] => false
  | a :: as, b :: bs =>
    if a.toNat < b.toNat then true
    else if b.toNat < a.toNat then false
    else listLeB as bs

/-- Python's `≤` on strings, as used by `sorted`. -/
def strLeB (a b : String) : Bool := listLeB a.toList b.toList

/-- The relation form of `strLeB`, for `List.insertionSort` and `List.Sorted`. -/
def strLe (a b : String) : Prop := strLeB a b = true

instance : DecidableRel strLe := fun a b => inferInstanceAs (Decidable (strLeB a b = true))

/-- Tests whether `needle` is a leading segment of `hay`. -/
def startsWithList : List Char → List Char → Bool
  | [], _ => true
  | _ :: _, [] => false
  | a :: as, b :: bs => a == b && startsWithList as bs

/-- Tests whether `needle` occurs contiguously inside `hay`. -/
def substrList (needle : List Char) : List Char → Bool
  | [] => needle.isEmpty
  | c :: rest => startsWithList needle (c :: rest) || substrList needle rest

/-- Python's `needle in hay` on strings. -/
def pyIn (needle hay : String) : Bool := substrList needle.toList hay.toList

/-- Python's `hay.endswith(suffix)`. -/
def pyEndsWith (hay suffix : String) : Bool :=
  startsWithList suffix.toList.reverse hay.toList.reverse

/-- The characters Python's `str.strip()` removes (ASCII whitespace). -/
def isPyWhitespace (c : Char) : Bool :=
  c == ' ' || c == '\t' || c == '\n' || c == '\r' || c == '\x0b' || c == '\x0c'

/-- Python's `s.strip()`. -/
def pyStripStr (s : String) : String :=
  String.mk (((s.toList.dropWhile isPyWhitespace).reverse.dropWhile isPyWhitespace).reverse)

/-- ASCII lowercasing of one character. -/
def pyCharLower (c : Char) : Char :=
  if 'A' ≤ c ∧ c ≤ 'Z' then Char.ofNat (c.toNat + 32) else c

/-- Python's `s.lower()` restricted to ASCII. -/
def pyLower (s : String) : String := String.mk (s.toList.map pyCharLower)

/-! ### Python value operations used by the script -/

/-- Python `==` on the hashable values that can reach the example-word set.
Containers (`list`/`dict`) are unhashable: `set.add` raises `TypeError`
before their equality is ever consulted (see `setAdd`), so no deep-container
case is needed.  The Python corner `True == 1` is not modelled; no claim
involves boolean example words. -/
def pvEq : PyVal → PyVal → Bool
  | .none, .none => true
  | .bool a, .bool b => a == b
  | .str a, .str b => a == b
  | .num a, .num b => a == b
  | _, _ => false

/-- Membership in a Python set, modelled as a list of previously added values. -/
def pvMem (w : PyVal) (acc : List PyVal) : Bool := acc.any (fun v => pvEq w v)

/-- Python truthiness, as tested by `if pos:` at line 42 of the source. -/
def pyTruthy : PyVal → Bool
  | .none => false
  | .bool b => b
  | .str s => !(s == "")
  | .num n => !(n == 0)
  | .list xs => !xs.isEmpty
  | .dict kvs => !kvs.isEmpty

/-- Python's `v.get(k, d)`: only dictionaries have a `get` attribute; anything
else raises `AttributeError`. -/
def pyGetD (v : PyVal) (k : String) (d : PyVal) : Except PyExc PyVal :=
  match v with
  | .dict kvs =>
    match kvs.find? (fun kv => kv.1 == k) with
    | some kv => .ok kv.2
    | none => .ok d
  | _ => .error .attributeError

/-- Python's `v.get(k)` (default `None`), as in `definition.get('partOfSpeech')`. -/
def pyGet (v : PyVal) (k : String) : Except PyExc PyVal := pyGetD v k .none

/-- Python's `v.strip()`: only strings have a `strip` attribute. -/
def pyStrip : PyVal → Except PyExc String
  | .str s => .ok (pyStripStr s)
  | _ => .error .attributeError

/-- Python iteration `for x in v`: lists yield their elements, strings their
characters, dicts their keys; other values raise `TypeError`. -/
def pyIter : PyVal → Except PyExc (List PyVal)
  | .list xs => .ok xs
  | .str s => .ok (s.toList.map (fun c => .str (String.mk [c])))
  | .dict kvs => .ok (kvs.map (fun kv => .str kv.1))
  | _ => .error .typeError

/-- Treating a value as a display string: Python `sorted`/`', '.join` over the
example-word set succeeds only when every collected word is a string,
otherwise the run dies with a `TypeError`. -/
def strOfVal : PyVal → Except PyExc String
  | .str s => .ok s
  | _ => .error .typeError

/-! ### Insertion-ordered maps

Python `dict`, `defaultdict` and `Counter` preserve insertion order of keys;
they are modelled as association lists: lookup returns the first (and in
practice only) binding, assignment updates the first matching binding in
place and appends new keys at the end. -/

/-- Dictionary lookup with default (`m[k]` via `dict.get(k, d)`, and
`defaultdict`/`Counter` access). -/
def alGetD {α : Type} : List (String × α) → String → α → α
  | [], _, d => d
  | kv :: rest, k, d => if kv.1 = k then kv.2 else alGetD rest k d

/-- Counter lookup: missing keys count as `0`. -/
def alGet (m : List (String × Nat)) (k : String) : Nat := alGetD m k 0

/-- Dictionary assignment `m[k] = v`. -/
def alSet {α : Type} : List (String × α) → String → α → List (String × α)
  | [], k, v => [(k, v)]
  | kv :: rest, k, v => if kv.1 = k then (k, v) :: rest else kv :: alSet rest k v

/-- Python's `k in m` on a dictionary or `Counter`. -/
def memKeys {α : Type} : List (String × α) → String → Bool
  | [], _ => false
  | kv :: rest, k => kv.1 == k || memKeys rest k

/-- The key list of a dictionary, in insertion order (`m.keys()`). -/
def keysOf {α : Type} (m : List (String × α)) : List String := m.map Prod.fst

/-- Well-formedness of a dictionary: each key bound at most once.  Python
dictionaries cannot hold duplicate keys; every map the script builds starts
empty and grows only through `alSet`, which preserves this. -/
def keysNodup {α : Type} (m : List (String × α)) : Prop := (keysOf m).Nodup

/-! ### Per-project scan: `analyze_project` (source lines 20-52) -/

/-- The state `analyze_project` accumulates per project:
`pos_data : defaultdict(list)` mapping a POS string to its `(word, file)`
pairs in encounter order, `pos_counts : Counter`, and the `Error processing
...` lines printed for caught per-file exceptions. -/
structure ProjState where
  posData : List (String × List (PyVal × String))
  posCounts : List (String × Nat)
  errLog : List String
deriving Repr

/-- The state `analyze_project` starts from (lines 22-23). -/
def emptyProj : ProjState := ⟨[], [], []⟩

/-- Lines 44-46: append `(word, file)` to `pos_data[pos]` and increment
`pos_counts[pos]`. -/
def addRecord (st : ProjState) (pos : String) (word : PyVal) (path : String) : ProjState :=
  { st with
    posData := alSet st.posData pos (alGetD st.posData pos [] ++ [(word, path)])
    posCounts := alSet st.posCounts pos (alGet st.posCounts pos + 1) }

/-- The inner loop of lines 40-46: for each element of the file's `data`
list, read `partOfSpeech`; if truthy, strip it and record one definition.
Non-dictionary elements and truthy non-string `partOfSpeech` values raise
`AttributeError`. -/
def processDefs (word : PyVal) (path : String) : ProjState → List PyVal → Except PyExc ProjState
  | st, [] => .ok st
  | st, d :: ds =>
    match pyGet d "partOfSpeech" with
    | .error e => .error e
    | .ok pos =>
      if pyTruthy pos then
        match pyStrip pos with
        | .error e => .error e
        | .ok s => processDefs word path (addRecord st s word path) ds
      else processDefs word path st ds

/-- Lines 37-46 applied to one successfully parsed file: extract `word`
(default `"unknown"`) and `data` (default `[]`), then fold the definition
list into the state. -/
def processParsed (path : String) (j : PyVal) (st : ProjState) : Except PyExc ProjState :=
  match pyGetD j "word" (.str "unknown") with
  | .error e => .error e
  | .ok word =>
    match pyGetD j "data" (.list []) with
    | .error e => .error e
    | .ok defs =>
      match pyIter defs with
      | .error e => .error e
      | .ok items => processDefs word path st items

/-- One file of a project: its path and the result of `open` + `json.load`
(either the parsed value or the exception those calls raised). -/
structure FileEntry where
  path : String
  outcome : Except PyExc PyVal

/-- Printable name of an exception class, as it appears in the error line. -/
def excName : PyExc → String
  | .jsonDecodeError => "JSONDecodeError"
  | .fileNotFoundError => "FileNotFoundError"
  | .keyError => "KeyError"
  | .attributeError => "AttributeError"
  | .typeError => "TypeError"
  | .indexError => "IndexError"
  | .unicodeDecodeError => "UnicodeDecodeError"
  | .permissionError => "PermissionError"

/-- Line 49: `print(f"Error processing {json_file}: {e}")`. -/
def errLine (path : String) (e : PyExc) : String :=
  "Error processing " ++ path ++ ": " ++ excName e

/-- Lines 32-50, one iteration: run the `try` body on one file; exceptions in
the catch tuple are logged and skipped, all others propagate.  (The caught
kinds can only arise from `open`/`json.load`, before any record is added, so
resuming from the pre-file state is exact.) -/
def processFile (st : ProjState) (fe : FileEntry) : Except PyExc ProjState :=
  match (match fe.outcome with
         | .error e => (.error e : Except PyExc ProjState)
         | .ok j => processParsed fe.path j st) with
  | .ok st' => .ok st'
  | .error e =>
    if caughtByFileHandler e then
      .ok { st with errLog := st.errLog ++ [errLine fe.path e] }
    else .error e

/-- The file loop of lines 32-50 over the collected `json_files`. -/
def procFilesAux : ProjState → List FileEntry → Except PyExc ProjState
  | st, [] => .ok st
  | st, fe :: rest =>
    match processFile st fe with
    | .ok st' => procFilesAux st' rest
    | .error e => .error e

/-- Lines 20-52: analyze one project.  The input is `none` when the root
directory does not exist (lines 25-27: print a warning, return empty), and
`some files` otherwise.  The returned list holds the warning lines printed
(the `Processing N JSON files` progress line is not modelled). -/
def analyze_project (input : Option (List FileEntry)) (root : String) :
    List String × Except PyExc ProjState :=
  match input with
  | .none => (["Warning: " ++ root ++ " does not exist"], .ok emptyProj)
  | .some files => ([], procFilesAux emptyProj files)

/-! ### Aggregation across projects: `main`, lines 54-79 -/

/-- The three hard-coded project roots of lines 56-60, in iteration order. -/
def projNames : List String := ["occasional-wotd", "wordbun", "wordbug"]

/-- Root path of the first project. -/
def root1 : String := "/Users/kennedys1/Projects/occasional-wotd/data/demo/words"

/-- Root path of the second project. -/
def root2 : String := "/Users/kennedys1/Projects/wordbun/data/words"

/-- Root path of the third project. -/
def root3 : String := "/Users/kennedys1/Projects/wordbug/data/words"

/-- The combined state of lines 62-65: `all_pos_counts` (project name to
`Counter`), `global_pos_counts`, and `all_pos_data` (POS to project name to
`(word, file)` pairs). -/
structure MainAgg where
  allPosCounts : List (String × List (String × Nat))
  globalPosCounts : List (String × Nat)
  allPosData : List (String × List (String × List (PyVal × String)))
deriving Repr

/-- The empty combined state. -/
def emptyAgg : MainAgg := ⟨[], [], []⟩

/-- Python's `Counter.update`: add counts key by key, appending unseen keys
in the order they occur in `b` (line 75). -/
def counterUpdate (a : List (String × Nat)) : List (String × Nat) → List (String × Nat)
  | [] => a
  | kv :: rest => counterUpdate (alSet a kv.1 (alGet a kv.1 + kv.2)) rest

/-- Lines 72-79: store one analyzed project into the combined state. -/
def mergeProject (agg : MainAgg) (name : String) (st : ProjState) : MainAgg :=
  { allPosCounts := alSet agg.allPosCounts name st.posCounts
    globalPosCounts := counterUpdate agg.globalPosCounts st.posCounts
    allPosData := st.posData.foldl
      (fun ad pe => alSet ad pe.1 (alSet (alGetD ad pe.1 []) name pe.2)) agg.allPosData }

/-- The project loop of lines 68-79 over the three fixed projects, returning
the warning lines printed and either the combined state or the first
uncaught exception. -/
def aggregate (p1 p2 p3 : Option (List FileEntry)) :
    List String × Except PyExc MainAgg :=
  match (analyze_project p1 root1).2 with
  | .error e => ((analyze_project p1 root1).1, .error e)
  | .ok s1 =>
    match (analyze_project p2 root2).2 with
    | .error e => ((analyze_project p1 root1).1 ++ (analyze_project p2 root2).1, .error e)
    | .ok s2 =>
      match (analyze_project p3 root3).2 with
      | .error e =>
        ((analyze_project p1 root1).1 ++ (analyze_project p2 root2).1
           ++ (analyze_project p3 root3).1, .error e)
      | .ok s3 =>
        ((analyze_project p1 root1).1 ++ (analyze_project p2 root2).1
           ++ (analyze_project p3 root3).1,
         .ok (mergeProject
               (mergeProject (mergeProject emptyAgg "occasional-wotd" s1) "wordbun" s2)
               "wordbug" s3))

/-! ### Report: `main`, lines 82-188 -/

/-- Python's `Counter.most_common()`: entries sorted by descending count,
ties keeping first-encountered order (insertion sort is stable). -/
def mostCommonList (c : List (String × Nat)) : List (String × Nat) :=
  List.insertionSort (fun x y : String × Nat => y.2 ≤ x.2) c

/-- Line 160's `most_common(1)[0]`: the `[0]` raises `IndexError` when the
counter is empty. -/
def mostCommon1 (c : List (String × Nat)) : Except PyExc (String × Nat) :=
  match mostCommonList c with
  | [] => .error .indexError
  | x :: _ => .ok x

/-- Python's `sum(counter.values())`. -/
def sumVals (c : List (String × Nat)) : Nat := (c.map Prod.snd).sum

/-- Total definitions processed (line 159): `sum(global_pos_counts.values())`. -/
def totalDefinitionsOf (agg : MainAgg) : Nat := sumVals agg.globalPosCounts

/-- Total unique POS categories (lines 86, 158): `len(global_pos_counts)`. -/
def uniquePosCountOf (agg : MainAgg) : Nat := agg.globalPosCounts.length

/-- Line 110's `sorted(global_pos_counts.keys())`. -/
def sortedGlobalKeys (agg : MainAgg) : List String :=
  List.insertionSort strLe (keysOf agg.globalPosCounts)

/-- Line 112: a POS string has a formatting issue when it ends with `'.'` or
`','` or contains a double space. -/
def fmtCond (pos : String) : Bool :=
  pyEndsWith pos "." || pyEndsWith pos "," || pyIn "  " pos

/-- The specialized-category markers of line 116, in source order. -/
def stdSpecWords : List String :=
  ["transitive", "intransitive", "auxiliary", "modal", "phrasal", "definite", "indefinite"]

/-- Line 116: a POS string is specialized when its lowercase form contains
one of the markers. -/
def specCond (pos : String) : Bool :=
  stdSpecWords.any (fun w => pyIn w (pyLower pos))

/-- Lines 110-113 and 119-122: the `formatting_issues` list, with the count
each entry is printed with. -/
def fmtIssuesOf (agg : MainAgg) : List (String × Nat) :=
  ((sortedGlobalKeys agg).filter fmtCond).map
    (fun p => (p, alGet agg.globalPosCounts p))

/-- Lines 110-117 and 124-127: the `specialized_pos` list, with the count
each entry is printed with. -/
def specializedOf (agg : MainAgg) : List (String × Nat) :=
  ((sortedGlobalKeys agg).filter specCond).map
    (fun p => (p, alGet agg.globalPosCounts p))

/-- Line 132: global keys sorted by descending count (Python `sorted` is
stable; ties keep insertion order), truncated to the top 20. -/
def topKeysOf (agg : MainAgg) : List String :=
  (List.insertionSort
    (fun a b : String => alGet agg.globalPosCounts b ≤ alGet agg.globalPosCounts a)
    (keysOf agg.globalPosCounts)).take 20

/-- Line 140's `example_words.add(word)`: lists and dictionaries are
unhashable, so adding one raises `TypeError`; otherwise the word joins the
set if not already present.  The set is modelled as the list of distinct
values added (its iteration order is irrelevant: the script only takes its
size and its sorted form). -/
def setAdd (acc : List PyVal) (w : PyVal) : Except PyExc (List PyVal) :=
  match w with
  | .list _ => .error .typeError
  | .dict _ => .error .typeError
  | _ => .ok (if pvMem w acc then acc else w :: acc)

/-- Lines 139-142, inner loop: add each word of one project's example slice,
breaking as soon as the set reaches 5. -/
def addWords : List PyVal → List PyVal → Except PyExc (List PyVal)
  | acc, [] => .ok acc
  | acc, w :: ws =>
    match setAdd acc w with
    | .error e => .error e
    | .ok acc' => if 5 ≤ acc'.length then .ok acc' else addWords acc' ws

/-- Lines 137-144, outer loop: projects in fixed order, breaking once the
set reaches 5. -/
def gatherWords : List PyVal → List (List PyVal) → Except PyExc (List PyVal)
  | acc, [] => .ok acc
  | acc, l :: ls =>
    match addWords acc l with
    | .error e => .error e
    | .ok acc' => if 5 ≤ acc'.length then .ok acc' else gatherWords acc' ls

/-- Line 139's `all_pos_data[pos][project_name][:3]` projected to words:
the first three `(word, file)` pairs recorded for `pos` by `name` (empty
when either key is absent, matching the `in` guards of line 138). -/
def take3Words (agg : MainAgg) (pos name : String) : List PyVal :=
  ((alGetD (alGetD agg.allPosData pos []) name []).take 3).map Prod.fst

/-- Lookup `all_pos_counts[name]` (a `defaultdict(Counter)`, so missing
projects give the empty counter). -/
def projCounter (agg : MainAgg) (name : String) : List (String × Nat) :=
  alGetD agg.allPosCounts name []

/-- Lines 149-154: the projects containing `pos`, with their counts. -/
def projectsWithOf (agg : MainAgg) (pos : String) : List (String × Nat) :=
  projNames.filterMap
    (fun n => if memKeys (projCounter agg n) pos then some (n, alGet (projCounter agg n) pos) else none)

/-- One entry of report section 4 (lines 132-154). -/
structure Top20Entry where
  pos : String
  count : Nat
  examples : List String
  projectsWith : List (String × Nat)
deriving DecidableEq, Repr

/-- A `for` loop building a list, stopping at the first exception. -/
def mapExcept {α β : Type} (f : α → Except PyExc β) : List α → Except PyExc (List β)
  | [] => .ok []
  | a :: as =>
    match f a with
    | .error e => .error e
    | .ok b =>
      match mapExcept f as with
      | .error e => .error e
      | .ok bs => .ok (b :: bs)

/-- Lines 132-154 for one POS: gather up to 5 unique example words (up to 3
per project, in project order), then display them sorted alphabetically
(line 146; the `[:5]` there never truncates since the collection loop
already stops at 5).  Non-string words make the display raise `TypeError`
(unhashable container at `add`, or `sorted`/`join` on mixed types). -/
def top20Entry (agg : MainAgg) (pos : String) : Except PyExc Top20Entry :=
  match gatherWords [] (projNames.map (take3Words agg pos)) with
  | .error e => .error e
  | .ok vs =>
    match mapExcept strOfVal vs with
    | .error e => .error e
    | .ok ws =>
      .ok { pos := pos
            count := alGet agg.globalPosCounts pos
            examples := List.insertionSort strLe ws
            projectsWith := projectsWithOf agg pos }

/-- Report section 4 (lines 132-154). -/
def buildTop20 (agg : MainAgg) : Except PyExc (List Top20Entry) :=
  mapExcept (top20Entry agg) (topKeysOf agg)

/-- Lines 167-170: the POS keys present in all three projects, as a sorted
list (`set` intersection, then `sorted`). -/
def sharedPosKeys (agg : MainAgg) : List String :=
  List.insertionSort strLe
    (((keysOf (projCounter agg "occasional-wotd")).dedup).filter
      (fun k => memKeys (projCounter agg "wordbun") k
             && memKeys (projCounter agg "wordbug") k))

/-- Lines 172-176: each shared POS with all three per-project counts, in
project order. -/
def sharedPosReport (agg : MainAgg) : List (String × List (String × Nat)) :=
  (sharedPosKeys agg).map
    (fun p => (p, projNames.map (fun n => (n, alGet (projCounter agg n) p))))

/-- The other two projects, as iterated by lines 181-183. -/
def othersOf (name : String) : List String := projNames.filter (fun m => !(m == name))

/-- Lines 179-183: POS keys present in `name`'s counter and absent from both
other projects, sorted. -/
def uniqueKeysOf (agg : MainAgg) (name : String) : List String :=
  List.insertionSort strLe
    (((keysOf (projCounter agg name)).dedup).filter
      (fun k => (othersOf name).all (fun m => !(memKeys (projCounter agg m) k))))

/-- Lines 179-188: per project, its unique POS keys with their counts. -/
def uniquePerProjectOf (agg : MainAgg) : List (String × List (String × Nat)) :=
  projNames.map
    (fun n => (n, (uniqueKeysOf agg n).map (fun p => (p, alGet (projCounter agg n) p))))

/-- The data behind the six printed report sections. -/
structure Report where
  uniquePosTotal : Nat
  globalDistribution : List (String × Nat)
  projectBreakdown : List (String × Nat × Nat × List (String × Nat))
  formattingIssues : List (String × Nat)
  specializedPos : List (String × Nat)
  top20 : List Top20Entry
  totalDefs : Nat
  mostCommonPos : String × Nat
  projectsAnalyzed : Nat
  sharedPos : List (String × List (String × Nat))
  uniquePerProject : List (String × List (String × Nat))
deriving Repr

/-- Lines 82-188: build the report from the combined state.  Sections 1-3
cannot raise; section 4 raises `TypeError` on non-string example words
(line 146) and section 5 raises `IndexError` on an empty global counter
(line 160), in that print order. -/
def buildReport (agg : MainAgg) : Except PyExc Report :=
  match buildTop20 agg with
  | .error e => .error e
  | .ok t20 =>
    match mostCommon1 agg.globalPosCounts with
    | .error e => .error e
    | .ok mc =>
      .ok { uniquePosTotal := uniquePosCountOf agg
            globalDistribution := mostCommonList agg.globalPosCounts
            projectBreakdown := projNames.map
              (fun n => (n, sumVals (projCounter agg n), (projCounter agg n).length,
                         mostCommonList (projCounter agg n)))
            formattingIssues := fmtIssuesOf agg
            specializedPos := specializedOf agg
            top20 := t20
            totalDefs := totalDefinitionsOf agg
            mostCommonPos := mc
            projectsAnalyzed := projNames.length
            sharedPos := sharedPosReport agg
            uniquePerProject := uniquePerProjectOf agg }

/-- The whole script (`main`, lines 54-188): aggregate the three projects,
then build the report.  Returns the warning lines printed and either the
report data or the uncaught exception that aborted the run. -/
def runMain (p1 p2 p3 : Option (List FileEntry)) : List String × Except PyExc Report :=
  match aggregate p1 p2 p3 with
  | (w, .error e) => (w, .error e)
  | (w, .ok agg) => (w, buildReport agg)

/-! ### Concrete inputs used by witnesses and counterexamples -/

/-- Parsed form of a file `{"word": "alpha", "data": [{"partOfSpeech":
"noun"}, {"partOfSpeech": "verb"}]}`. -/
def nvJson : PyVal :=
  .dict [("word", .str "alpha"),
         ("data", .list [.dict [("partOfSpeech", .str "noun")],
                         .dict [("partOfSpeech", .str "verb")]])]

/-- A project root containing one well-formed file with one noun and one
verb definition. -/
def nvInput : Option (List FileEntry) := .some [⟨"w.json", .ok nvJson⟩]

/-- A file that parses and extracts without error. -/
def goodEntry : FileEntry := ⟨"good.json", .ok nvJson⟩

/-- Parsed form of the C4 file `{"word":"x","data":[{"partOfSpeech":"Noun "}]}`. -/
def c4Json : PyVal :=
  .dict [("word", .str "x"), ("data", .list [.dict [("partOfSpeech", .str "Noun ")]])]

/-- A well-formed JSON file whose `data` list holds a non-object element. -/
def nonDictElemJson : PyVal :=
  .dict [("word", .str "x"), ("data", .list [.num 3])]

/-- A well-formed JSON file with a truthy non-string `partOfSpeech`. -/
def numPosJson : PyVal :=
  .dict [("word", .str "x"), ("data", .list [.dict [("partOfSpeech", .num 7)]])]

/-! ### Lemmas: insertion-ordered maps -/

theorem keysOf_cons {α : Type} (kv : String × α) (rest : List (String × α)) :
    keysOf (kv :: rest) = kv.1 :: keysOf rest := rfl

theorem mem_keysOf_cons {α : Type} {kv : String × α} {rest : List (String × α)} {k : String} :
    k ∈ keysOf (kv :: rest) ↔ k = kv.1 ∨ k ∈ keysOf rest := by
  rw [keysOf_cons, List.mem_cons]

theorem keysNodup_cons {α : Type} (kv : String × α) (rest : List (String × α)) :
    keysNodup (kv :: rest) ↔ kv.1 ∉ keysOf rest ∧ keysNodup rest := by
  rw [keysNodup, keysOf_cons, List.nodup_cons]; exact Iff.rfl

theorem alGetD_alSet {α : Type} (m : List (String × α)) (k k' : String) (v d : α) :
    alGetD (alSet m k v) k' d = if k' = k then v else alGetD m k' d := by
  induction m with
  | nil =>
    by_cases h : k' = k
    · subst h; simp [alSet, alGetD]
    · have h' : ¬ k = k' := fun he => h he.symm
      simp only [alSet, alGetD, if_neg h, if_neg h']
  | cons kv rest ih =>
    by_cases h1 : kv.1 = k
    · by_cases h2 : k' = k
      · subst h2
        simp only [alSet, if_pos h1, alGetD, if_pos rfl]
        simp [h1]
      · have h3 : ¬ k = k' := fun he => h2 he.symm
        have h4 : ¬ kv.1 = k' := fun he => h2 ((h1.symm.trans he).symm)
        simp only [alSet, if_pos h1, alGetD, if_neg h3, if_neg h2, if_neg h4]
    · by_cases h2 : kv.1 = k'
      · have h3 : ¬ k' = k := fun he => h1 (h2.trans he)
        simp only [alSet, if_neg h1, alGetD, if_pos h2, if_neg h3]
      · simp only [alSet, if_neg h1, alGetD, if_neg h2, ih]

theorem memKeys_iff {α : Type} (m : List (String × α)) (k : String) :
    memKeys m k = true ↔ k ∈ keysOf m := by
  induction m with
  | nil => simp [memKeys, keysOf]
  | cons kv rest ih =>
    rw [memKeys, mem_keysOf_cons, Bool.or_eq_true, beq_iff_eq, ih]
    constructor
    · rintro (h | h)
      · exact Or.inl h.symm
      · exact Or.inr h
    · rintro (h | h)
      · exact Or.inl h.symm
      · exact Or.inr h

theorem alGetD_of_notMem {α : Type} (m : List (String × α)) (k : String) (d : α)
    (h : k ∉ keysOf m) : alGetD m k d = d := by
  induction m with
  | nil => simp [alGetD]
  | cons kv rest ih =>
    rw [mem_keysOf_cons] at h
    push_neg at h
    rw [alGetD, if_neg (fun he => h.1 he.symm)]
    exact ih h.2

theorem keysOf_alSet_mem {α : Type} (m : List (String × α)) (k : String) (v : α)
    (h : k ∈ keysOf m) : keysOf (alSet m k v) = keysOf m := by
  induction m with
  | nil => simp [keysOf] at h
  | cons kv rest ih =>
    by_cases h1 : kv.1 = k
    · rw [alSet, if_pos h1, keysOf_cons, keysOf_cons, h1]
    · have h2 : k ∈ keysOf rest := by
        rcases mem_keysOf_cons.mp h with h2 | h2
        · exact absurd h2.symm h1
        · exact h2
      rw [alSet, if_neg h1, keysOf_cons, keysOf_cons, ih h2]

theorem keysOf_alSet_notMem {α : Type} (m : List (String × α)) (k : String) (v : α)
    (h : k ∉ keysOf m) : keysOf (alSet m k v) = keysOf m ++ [k] := by
  induction m with
  | nil => simp [alSet, keysOf]
  | cons kv rest ih =>
    rw [mem_keysOf_cons] at h
    push_neg at h
    rw [alSet, if_neg (fun he => h.1 he.symm), keysOf_cons, keysOf_cons, ih h.2,
      List.cons_append]

theorem keysNodup_alSet {α : Type} (m : List (String × α)) (k : String) (v : α)
    (h : keysNodup m) : keysNodup (alSet m k v) := by
  by_cases hm : k ∈ keysOf m
  · rw [keysNodup, keysOf_alSet_mem m k v hm]; exact h
  · rw [keysNodup, keysOf_alSet_notMem m k v hm]
    simpa [List.nodup_append] using ⟨h, fun hk => hm hk⟩

theorem alGet_counterUpdate (b : List (String × Nat)) (hb : keysNodup b) :
    ∀ (a : List (String × Nat)) (k : String),
      alGet (counterUpdate a b) k = alGet a k + alGet b k := by
  induction b with
  | nil => intro a k; simp [counterUpdate, alGet, alGetD]
  | cons kv rest ih =>
    intro a k
    have hb2 := (keysNodup_cons kv rest).mp hb
    rw [counterUpdate, ih hb2.2]
    unfold alGet
    rw [alGetD_alSet]
    by_cases h : k = kv.1
    · subst h
      rw [alGetD_of_notMem rest kv.1 0 hb2.1]
      simp [alGetD]
    · rw [if_neg h, alGetD, if_neg (fun he => h he.symm)]

/-! ### Lemmas: every counter the scan builds has distinct keys -/

theorem keysNodup_addRecord (st : ProjState) (pos : String) (w : PyVal) (p : String)
    (h : keysNodup st.posCounts) : keysNodup (addRecord st pos w p).posCounts := by
  simpa [addRecord] using keysNodup_alSet st.posCounts pos (alGet st.posCounts pos + 1) h

theorem keysNodup_processDefs (ds : List PyVal) (w : PyVal) (p : String) :
    ∀ st st' : ProjState, keysNodup st.posCounts →
      processDefs w p st ds = .ok st' → keysNodup st'.posCounts := by
  induction ds with
  | nil =>
    intro st st' hst h
    rw [processDefs] at h
    cases h
    exact hst
  | cons d ds ih =>
    intro st st' hst h
    rw [processDefs] at h
    split at h
    · cases h
    · split at h
      · split at h
        · cases h
        · exact ih _ _ (keysNodup_addRecord st _ w p hst) h
      · exact ih _ _ hst h

theorem keysNodup_processParsed (p : String) (j : PyVal) (st st' : ProjState)
    (hst : keysNodup st.posCounts) (h : processParsed p j st = .ok st') :
    keysNodup st'.posCounts := by
  unfold processParsed at h
  split at h
  · cases h
  · split at h
    · cases h
    · split at h
      · cases h
      · exact keysNodup_processDefs _ _ p st st' hst h

theorem keysNodup_processFile (st st' : ProjState) (fe : FileEntry)
    (hst : keysNodup st.posCounts) (h : processFile st fe = .ok st') :
    keysNodup st'.posCounts := by
  unfold processFile at h
  split at h
  · rename_i st2 heq
    cases h
    split at heq
    · cases heq
    · exact keysNodup_processParsed fe.path _ st st' hst heq
  · split at h
    · cases h
      exact hst
    · cases h

theorem keysNodup_procFilesAux (files : List FileEntry) :
    ∀ st st' : ProjState, keysNodup st.posCounts →
      procFilesAux st files = .ok st' → keysNodup st'.posCounts := by
  induction files with
  | nil =>
    intro st st' hst h
    rw [procFilesAux] at h
    cases h
    exact hst
  | cons fe rest ih =>
    intro st st' hst h
    rw [procFilesAux] at h
    cases hf : processFile st fe with
    | error e => rw [hf] at h; cases h
    | ok st2 =>
      rw [hf] at h
      exact ih _ _ (keysNodup_processFile st st2 fe hst hf) h

theorem keysNodup_analyze_project (input : Option (List FileEntry)) (root : String)
    (st : ProjState)
    (h : (analyze_project input root).2 = .ok st) : keysNodup st.posCounts := by
  cases input with
  | none =>
    rw [analyze_project] at h
    cases h
    exact List.nodup_nil
  | some files =>
    rw [analyze_project] at h
    exact keysNodup_procFilesAux files emptyProj st List.nodup_nil h

/-! ### Claim C1 -/

/-- C1: for every POS key, after all three projects are aggregated the global
count for that key equals the sum over the three projects of that project's
count for the same key (`global_pos_counts` is built by `Counter.update` from
exactly the three per-project counters stored in `all_pos_counts`). -/
theorem C1_global_count_is_sum_of_project_counts
    (p1 p2 p3 : Option (List FileEntry)) (w : List String) (agg : MainAgg)
    (h : aggregate p1 p2 p3 = (w, .ok agg)) (k : String) :
    alGet agg.globalPosCounts k =
      alGet (projCounter agg "occasional-wotd") k
        + alGet (projCounter agg "wordbun") k
        + alGet (projCounter agg "wordbug") k := by
  unfold aggregate at h
  split at h
  · exact absurd (congrArg Prod.snd h) (by simp)
  · rename_i s1 h1
    split at h
    · exact absurd (congrArg Prod.snd h) (by simp)
    · rename_i s2 h2
      split at h
      · exact absurd (congrArg Prod.snd h) (by simp)
      · rename_i s3 h3
        have hagg : agg = mergeProject
            (mergeProject (mergeProject emptyAgg "occasional-wotd" s1) "wordbun" s2)
            "wordbug" s3 := by
          have h4 := congrArg Prod.snd h
          simpa using h4.symm
        subst hagg
        have hn1 := keysNodup_analyze_project p1 root1 s1 h1
        have hn2 := keysNodup_analyze_project p2 root2 s2 h2
        have hn3 := keysNodup_analyze_project p3 root3 s3 h3
        show alGet (counterUpdate (counterUpdate (counterUpdate [] s1.posCounts)
              s2.posCounts) s3.posCounts) k
          = alGet s1.posCounts k + alGet s2.posCounts k + alGet s3.posCounts k
        rw [alGet_counterUpdate s3.posCounts hn3, alGet_counterUpdate s2.posCounts hn2,
          alGet_counterUpdate s1.posCounts hn1]
        simp [alGet, alGetD]

/-- The combined state produced by running the script on three copies of the
one-file noun/verb project. -/
def nvAgg : MainAgg :=
  ⟨[("occasional-wotd", [("noun", 1), ("verb", 1)]),
    ("wordbun", [("noun", 1), ("verb", 1)]),
    ("wordbug", [("noun", 1), ("verb", 1)])],
   [("noun", 3), ("verb", 3)],
   [("noun", [("occasional-wotd", [(.str "alpha", "w.json")]),
              ("wordbun", [(.str "alpha", "w.json")]),
              ("wordbug", [(.str "alpha", "w.json")])]),
    ("verb", [("occasional-wotd", [(.str "alpha", "w.json")]),
              ("wordbun", [(.str "alpha", "w.json")]),
              ("wordbug", [(.str "alpha", "w.json")])])]⟩

/-- Witness for C1 at a concrete run: three copies of the noun/verb project. -/
theorem C1_witness :
    alGet nvAgg.globalPosCounts "noun" =
      alGet (projCounter nvAgg "occasional-wotd") "noun"
        + alGet (projCounter nvAgg "wordbun") "noun"
        + alGet (projCounter nvAgg "wordbug") "noun" :=
  C1_global_count_is_sum_of_project_counts nvInput nvInput nvInput [] nvAgg rfl "noun"

/-! ### Claim C2 -/

/-- The combined state when all three roots are missing. -/
def allMissingAgg : MainAgg :=
  ⟨[("occasional-wotd", []), ("wordbun", []), ("wordbug", [])], [], []⟩

/-- C2 (code bug): with all three project roots missing, the script prints
one warning per missing root and aggregates an empty state with zero total
definitions and zero unique POS categories, but it does not complete the
report: `global_pos_counts.most_common(1)` is `[]`, so the `[0]` at line 160
raises an uncaught `IndexError` and the run aborts inside section 5 instead
of finishing without an unhandled error. -/
theorem C2_all_roots_missing_crashes :
    aggregate .none .none .none =
      (["Warning: " ++ root1 ++ " does not exist",
        "Warning: " ++ root2 ++ " does not exist",
        "Warning: " ++ root3 ++ " does not exist"], .ok allMissingAgg)
    ∧ totalDefinitionsOf allMissingAgg = 0
    ∧ uniquePosCountOf allMissingAgg = 0
    ∧ buildReport allMissingAgg = .error .indexError
    ∧ (runMain .none .none .none).2 = .error .indexError :=
  ⟨rfl, rfl, rfl, rfl, rfl⟩

/-! ### Claim C3 -/

/-- A file whose bytes are not valid UTF-8: `json.load` raises
`UnicodeDecodeError` while decoding. -/
def utf8BadEntry : FileEntry := ⟨"bad-utf8.json", .error .unicodeDecodeError⟩

/-- C3 counterexample: a file that fails to parse because its bytes are not
valid UTF-8 raises `UnicodeDecodeError`, which is not in the `except` tuple
of line 48 (`JSONDecodeError`, `FileNotFoundError`, `KeyError`), so the run
aborts and the following file is never processed — contradicting the claim
that every unreadable or unparseable file is caught and never aborts the
run.  An unreadable file raising `PermissionError` behaves the same way. -/
theorem C3_counterexample_uncaught_parse_error :
    procFilesAux emptyProj [utf8BadEntry, goodEntry] = .error .unicodeDecodeError
    ∧ caughtByFileHandler .unicodeDecodeError = false
    ∧ caughtByFileHandler .permissionError = false
    ∧ (runMain (.some [utf8BadEntry, goodEntry]) (.some []) (.some [])).2
        = .error .unicodeDecodeError :=
  ⟨rfl, rfl, rfl, rfl⟩

/-- C3 amended: a file whose processing raises `json.JSONDecodeError`,
`FileNotFoundError` or `KeyError` is caught: an error line naming the file
path and exception is printed, the file contributes no records and no counts
(the state is unchanged except for the log), and processing continues with
the subsequent files; an exception outside that tuple (for example
`UnicodeDecodeError` for a file that is not valid UTF-8, or
`PermissionError` for an unreadable one) is not caught and aborts the run. -/
theorem C3_caught_errors_skip_uncaught_abort
    (st : ProjState) (p : String) (e : PyExc) (ys : List FileEntry)
    (hc : caughtByFileHandler e = true) :
    processFile st ⟨p, .error e⟩ =
      .ok { st with errLog := st.errLog ++ [errLine p e] }
    ∧ procFilesAux st (⟨p, .error e⟩ :: ys) =
        procFilesAux { st with errLog := st.errLog ++ [errLine p e] } ys
    ∧ (∀ e', caughtByFileHandler e' = false →
        procFilesAux st (⟨p, .error e'⟩ :: ys) = .error e') := by
  have h1 : processFile st ⟨p, .error e⟩ =
      .ok { st with errLog := st.errLog ++ [errLine p e] } := by
    simp [processFile, hc]
  refine ⟨h1, ?_, ?_⟩
  · rw [procFilesAux, h1]
  · intro e' hc'
    have h2 : processFile st ⟨p, .error e'⟩ = .error e' := by
      simp [processFile, hc']
    rw [procFilesAux, h2]

/-- Witness for C3's amended statement at a concrete caught error. -/
theorem C3_witness :
    processFile emptyProj ⟨"f.json", .error .jsonDecodeError⟩ =
      .ok { emptyProj with
              errLog := emptyProj.errLog ++ [errLine "f.json" .jsonDecodeError] }
    ∧ procFilesAux emptyProj (⟨"f.json", .error .jsonDecodeError⟩ :: [goodEntry]) =
        procFilesAux { emptyProj with
              errLog := emptyProj.errLog ++ [errLine "f.json" .jsonDecodeError] }
          [goodEntry]
    ∧ (∀ e', caughtByFileHandler e' = false →
        procFilesAux emptyProj (⟨"f.json", .error e'⟩ :: [goodEntry]) = .error e') :=
  C3_caught_errors_skip_uncaught_abort emptyProj "f.json" .jsonDecodeError [goodEntry] rfl

/-! ### Claim C4 -/

/-- The combined state produced when the C4 file is the only file of the
first project and the other two projects are empty. -/
def c4Agg : MainAgg :=
  ⟨[("occasional-wotd", [("Noun", 1)]), ("wordbun", []), ("wordbug", [])],
   [("Noun", 1)],
   [("Noun", [("occasional-wotd", [(.str "x", "x.json")])])]⟩

/-- C4: a file parsing to `{"word":"x","data":[{"partOfSpeech":"Noun "}]}`
contributes exactly one record whose POS key is the trimmed string `"Noun"`,
appending `("x", path)` to the project's `pos_data["Noun"]` and bumping the
project counter for `"Noun"` by one; in a run where it is the only file,
both the containing project's count and the global count for `"Noun"` come
out as 1. -/
theorem C4_trimmed_noun_record (st : ProjState) (p : String) :
    processFile st ⟨p, .ok c4Json⟩ = .ok (addRecord st "Noun" (.str "x") p)
    ∧ alGet (addRecord st "Noun" (.str "x") p).posCounts "Noun"
        = alGet st.posCounts "Noun" + 1
    ∧ (addRecord st "Noun" (.str "x") p).posData
        = alSet st.posData "Noun" (alGetD st.posData "Noun" [] ++ [(.str "x", p)])
    ∧ aggregate (.some [⟨"x.json", .ok c4Json⟩]) (.some []) (.some [])
        = ([], .ok c4Agg)
    ∧ alGet c4Agg.globalPosCounts "Noun" = 1
    ∧ alGet (projCounter c4Agg "occasional-wotd") "Noun" = 1 := by
  refine ⟨rfl, ?_, rfl, rfl, rfl, rfl⟩
  simp [addRecord, alGet, alGetD_alSet]

/-! ### Claim C5 -/

/-- C5 counterexample: the truthiness test `if pos:` at line 41-42 runs
before `strip()`, so an element whose `partOfSpeech` is the whitespace-only
string `" "` is truthy, is stripped to `""`, and does contribute one record
and one count, under the empty-string key — contradicting the claim that a
whitespace-only `partOfSpeech` contributes no record and no count. -/
theorem C5_counterexample_whitespace_pos :
    processDefs (.str "x") "f.json" emptyProj [.dict [("partOfSpeech", .str " ")]]
      = .ok (addRecord emptyProj "" (.str "x") "f.json")
    ∧ alGet (addRecord emptyProj "" (.str "x") "f.json").posCounts "" = 1
    ∧ (addRecord emptyProj "" (.str "x") "f.json").posData.length = 1 :=
  ⟨rfl, rfl, rfl⟩

/-- C5 amended: for a `data` element `{"partOfSpeech": s}` with `s` a
string, a DefinitionRecord is emitted iff `s` is non-empty BEFORE trimming
(Python truthiness), and the recorded POS key is the trimmed string — so a
whitespace-only `s` yields one record whose key is the empty string, while
an absent or empty `partOfSpeech` yields none. -/
theorem C5_truthiness_gates_before_trim (w : PyVal) (s : String)
    (st : ProjState) (p : String) :
    processDefs w p st [.dict [("partOfSpeech", .str s)]] =
      .ok (if s = "" then st else addRecord st (pyStripStr s) w p) := by
  by_cases hs : s = ""
  · subst hs
    simp [processDefs, pyGet, pyGetD, pyTruthy]
  · simp [processDefs, pyGet, pyGetD, pyTruthy, pyStrip, hs]

/-! ### Claim C10 -/

/-- C10: a well-formed JSON file whose `data` list holds a non-object
element (here the number 3, which has no `get` attribute), or whose
`partOfSpeech` is a truthy non-string (here the number 7, which has no
`strip` attribute), raises `AttributeError` inside the `try` body; the
per-file handler of line 48 does not catch it, so the whole run aborts and
later files are never processed. -/
theorem C10_uncaught_extraction_errors :
    procFilesAux emptyProj [⟨"bad1.json", .ok nonDictElemJson⟩, goodEntry]
      = .error .attributeError
    ∧ procFilesAux emptyProj [⟨"bad2.json", .ok numPosJson⟩, goodEntry]
      = .error .attributeError
    ∧ caughtByFileHandler .attributeError = false
    ∧ (runMain (.some [⟨"bad1.json", .ok nonDictElemJson⟩]) (.some []) (.some [])).2
        = .error .attributeError :=
  ⟨rfl, rfl, rfl, rfl⟩

/-! ### Lemmas: the Python string order is total and transitive -/

theorem listLeB_total (a : List Char) : ∀ b, listLeB a b = true ∨ listLeB b a = true := by
  induction a with
  | nil => intro b; left; rfl
  | cons x xs ih =>
    intro b
    cases b with
    | nil => right; rfl
    | cons y ys =>
      by_cases h1 : x.toNat < y.toNat
      · left; rw [listLeB, if_pos h1]
      · by_cases h2 : y.toNat < x.toNat
        · right; rw [listLeB, if_pos h2]
        · rcases ih ys with h | h
          · left; rw [listLeB, if_neg h1, if_neg h2]; exact h
          · right; rw [listLeB, if_neg h2, if_neg h1]; exact h

theorem listLeB_trans (a : List Char) :
    ∀ b c, listLeB a b = true → listLeB b c = true → listLeB a c = true := by
  induction a with
  | nil => intro b c _ _; rfl
  | cons x xs ih =>
    intro b c h1 h2
    cases b with
    | nil => rw [listLeB] at h1; cases h1
    | cons y ys =>
      cases c with
      | nil => rw [listLeB] at h2; cases h2
      | cons z zs =>
        rw [listLeB] at h1 h2 ⊢
        split_ifs at h1 h2 ⊢ <;> first
          | rfl
          | omega
          | (exact ih ys zs h1 h2)

instance : IsTotal String strLe := ⟨fun a b => listLeB_total a.toList b.toList⟩

instance : IsTrans String strLe :=
  ⟨fun a b c h1 h2 => listLeB_trans a.toList b.toList c.toList h1 h2⟩

/-! ### Lemmas: example-word collection (lines 135-146) -/

theorem mapExcept_ok_mem {α β : Type} (f : α → Except PyExc β) (l : List α) :
    ∀ l', mapExcept f l = .ok l' → ∀ y ∈ l', ∃ x ∈ l, f x = .ok y := by
  induction l with
  | nil =>
    intro l' h y hy
    rw [mapExcept] at h
    cases h
    cases hy
  | cons a as ih =>
    intro l' h y hy
    rw [mapExcept] at h
    split at h
    · cases h
    · rename_i b hb
      split at h
      · cases h
      · rename_i bs hbs
        cases h
        rcases List.mem_cons.mp hy with hy1 | hy1
        · exact ⟨a, List.mem_cons_self a as, hy1 ▸ hb⟩
        · obtain ⟨x, hx, hfx⟩ := ih bs hbs y hy1
          exact ⟨x, List.mem_cons_of_mem a hx, hfx⟩

theorem mapExcept_strOfVal_ok (vs : List PyVal) :
    ∀ ws : List String, mapExcept strOfVal vs = .ok ws → vs = ws.map PyVal.str := by
  induction vs with
  | nil =>
    intro ws h
    rw [mapExcept] at h
    cases h
    rfl
  | cons v vs ih =>
    intro ws h
    rw [mapExcept] at h
    split at h
    · cases h
    · rename_i b hb
      split at h
      · cases h
      · rename_i bs hbs
        cases h
        have hv : v = .str b := by
          cases v <;> simp [strOfVal] at hb <;> rw [hb]
        rw [List.map_cons, ← hv, ← ih bs hbs]

theorem setAdd_ok_strong (acc : List PyVal) (w : PyVal) (r : List PyVal)
    (h : setAdd acc w = .ok r) :
    (pvMem w acc = true ∧ r = acc) ∨ (pvMem w acc = false ∧ r = w :: acc) := by
  unfold setAdd at h
  split at h
  · cases h
  · cases h
  · by_cases hm : pvMem w acc = true
    · left
      refine ⟨hm, ?_⟩
      cases h
      rw [if_pos hm]
    · right
      refine ⟨Bool.not_eq_true _ ▸ (by simpa using hm), ?_⟩
      cases h
      rw [if_neg hm]

theorem addWords_len (l : List PyVal) :
    ∀ acc r, acc.length < 5 → addWords acc l = .ok r → r.length ≤ 5 := by
  induction l with
  | nil =>
    intro acc r h5 h
    rw [addWords] at h
    cases h
    omega
  | cons w ws ih =>
    intro acc r h5 h
    rw [addWords] at h
    split at h
    · cases h
    · rename_i acc' heq
      have hlen : acc'.length ≤ acc.length + 1 := by
        rcases setAdd_ok_strong acc w acc' heq with ⟨_, h1⟩ | ⟨_, h1⟩ <;> subst h1 <;> simp
      split at h
      · cases h; omega
      · rename_i hlt
        exact ih acc' r (by omega) h

theorem gatherWords_len (ls : List (List PyVal)) :
    ∀ acc r, acc.length < 5 → gatherWords acc ls = .ok r → r.length ≤ 5 := by
  induction ls with
  | nil =>
    intro acc r h5 h
    rw [gatherWords] at h
    cases h
    omega
  | cons l ls ih =>
    intro acc r h5 h
    rw [gatherWords] at h
    split at h
    · cases h
    · rename_i acc' heq
      have hlen : acc'.length ≤ 5 := addWords_len l acc acc' h5 heq
      split at h
      · cases h; omega
      · rename_i hlt
        exact ih acc' r (by omega) h

theorem pvMem_false_forall (w : PyVal) (acc : List PyVal) (h : pvMem w acc = false) :
    ∀ v ∈ acc, pvEq w v = false := by
  intro v hv
  by_contra hne
  have hv2 : pvEq w v = true := by
    cases hq : pvEq w v
    · exact absurd hq hne
    · rfl
  have : pvMem w acc = true := by
    rw [pvMem, List.any_eq_true]
    exact ⟨v, hv, hv2⟩
  rw [this] at h
  cases h

theorem setAdd_pairwise (acc : List PyVal) (w : PyVal) (r : List PyVal)
    (h : setAdd acc w = .ok r)
    (hp : acc.Pairwise (fun a b => pvEq a b = false)) :
    r.Pairwise (fun a b => pvEq a b = false) := by
  rcases setAdd_ok_strong acc w r h with ⟨_, h1⟩ | ⟨hm, h1⟩ <;> subst h1
  · exact hp
  · exact List.pairwise_cons.mpr ⟨pvMem_false_forall w acc hm, hp⟩

theorem addWords_pairwise (l : List PyVal) :
    ∀ acc r, acc.Pairwise (fun a b => pvEq a b = false) →
      addWords acc l = .ok r → r.Pairwise (fun a b => pvEq a b = false) := by
  induction l with
  | nil =>
    intro acc r hp h
    rw [addWords] at h
    cases h
    exact hp
  | cons w ws ih =>
    intro acc r hp h
    rw [addWords] at h
    split at h
    · cases h
    · rename_i acc' heq
      have hp' := setAdd_pairwise acc w acc' heq hp
      split at h
      · cases h; exact hp'
      · exact ih acc' r hp' h

theorem gatherWords_pairwise (ls : List (List PyVal)) :
    ∀ acc r, acc.Pairwise (fun a b => pvEq a b = false) →
      gatherWords acc ls = .ok r → r.Pairwise (fun a b => pvEq a b = false) := by
  induction ls with
  | nil =>
    intro acc r hp h
    rw [gatherWords] at h
    cases h
    exact hp
  | cons l ls ih =>
    intro acc r hp h
    rw [gatherWords] at h
    split at h
    · cases h
    · rename_i acc' heq
      have hp' := addWords_pairwise l acc acc' hp heq
      split at h
      · cases h; exact hp'
      · exact ih acc' r hp' h

theorem addWords_sub (l : List PyVal) :
    ∀ acc r, addWords acc l = .ok r → ∀ v ∈ r, v ∈ acc ∨ v ∈ l := by
  induction l with
  | nil =>
    intro acc r h v hv
    rw [addWords] at h
    cases h
    exact Or.inl hv
  | cons w ws ih =>
    intro acc r h v hv
    rw [addWords] at h
    split at h
    · cases h
    · rename_i acc' heq
      have hsub : ∀ u ∈ acc', u ∈ acc ∨ u = w := by
        intro u hu
        rcases setAdd_ok_strong acc w acc' heq with ⟨_, h1⟩ | ⟨_, h1⟩ <;> subst h1
        · exact Or.inl hu
        · rcases List.mem_cons.mp hu with h2 | h2
          · exact Or.inr h2
          · exact Or.inl h2
      split at h
      · cases h
        rcases hsub v hv with h2 | h2
        · exact Or.inl h2
        · exact Or.inr (h2 ▸ List.mem_cons_self w ws)
      · rcases ih acc' r h v hv with h2 | h2
        · rcases hsub v h2 with h3 | h3
          · exact Or.inl h3
          · exact Or.inr (h3 ▸ List.mem_cons_self w ws)
        · exact Or.inr (List.mem_cons_of_mem w h2)

theorem gatherWords_sub (ls : List (List PyVal)) :
    ∀ acc r, gatherWords acc ls = .ok r → ∀ v ∈ r, v ∈ acc ∨ ∃ l ∈ ls, v ∈ l := by
  induction ls with
  | nil =>
    intro acc r h v hv
    rw [gatherWords] at h
    cases h
    exact Or.inl hv
  | cons l ls ih =>
    intro acc r h v hv
    rw [gatherWords] at h
    split at h
    · cases h
    · rename_i acc' heq
      have hsub := addWords_sub l acc acc' heq
      split at h
      · cases h
        rcases hsub v hv with h2 | h2
        · exact Or.inl h2
        · exact Or.inr ⟨l, List.mem_cons_self l ls, h2⟩
      · rcases ih acc' r h v hv with h2 | h2
        · rcases hsub v h2 with h3 | h3
          · exact Or.inl h3
          · exact Or.inr ⟨l, List.mem_cons_self l ls, h3⟩
        · obtain ⟨l2, hl2, hvl2⟩ := h2
          exact Or.inr ⟨l2, List.mem_cons_of_mem l hl2, hvl2⟩

theorem map_str_pairwise_nodup (ws : List String)
    (h : (ws.map PyVal.str).Pairwise (fun a b => pvEq a b = false)) : ws.Nodup := by
  rw [List.pairwise_map] at h
  refine h.imp ?_
  intro a b hab
  simpa [pvEq] using hab

theorem alGetD_mem {α : Type} (m : List (String × α)) (k : String) (d : α)
    (h : k ∈ keysOf m) : (k, alGetD m k d) ∈ m := by
  induction m with
  | nil => simp [keysOf] at h
  | cons kv rest ih =>
    by_cases h1 : kv.1 = k
    · rw [alGetD, if_pos h1]
      have h2 : kv = (k, kv.2) := by rw [← h1]
      rw [← h2]
      exact List.mem_cons_self kv rest
    · rw [alGetD, if_neg h1]
      have h2 : k ∈ keysOf rest := by
        rcases mem_keysOf_cons.mp h with h2 | h2
        · exact absurd h2.symm h1
        · exact h2
      exact List.mem_cons_of_mem kv (ih h2)

/-! ### Claim C6 -/

/-- C6: a global POS key is listed among the formatting anomalies iff it
ends in `'.'` or `','` or contains a double space; in particular `"noun."`
satisfies the condition and `"noun"` does not. -/
theorem C6_formatting_anomaly_iff (agg : MainAgg) (pos : String) :
    (pos ∈ (fmtIssuesOf agg).map Prod.fst ↔
      pos ∈ keysOf agg.globalPosCounts ∧ fmtCond pos = true)
    ∧ fmtCond "noun." = true
    ∧ fmtCond "noun" = false := by
  refine ⟨?_, rfl, rfl⟩
  simp [fmtIssuesOf, sortedGlobalKeys, List.mem_filter, List.mem_insertionSort,
    List.mem_map]

/-- Witness for C6 at a concrete state and key. -/
theorem C6_witness :
    ("noun" ∈ (fmtIssuesOf nvAgg).map Prod.fst ↔
      "noun" ∈ keysOf nvAgg.globalPosCounts ∧ fmtCond "noun" = true)
    ∧ fmtCond "noun." = true
    ∧ fmtCond "noun" = false :=
  C6_formatting_anomaly_iff nvAgg "noun"

/-! ### Claim C7 -/

/-- C7: a global POS key is listed among the specialized grammatical
categories iff its lowercase form contains one of `transitive`,
`intransitive`, `auxiliary`, `modal`, `phrasal`, `definite`, `indefinite`;
`"phrasal verb"` satisfies the condition; and a specialized key is not
excluded elsewhere: it still appears in the section-1 global distribution
(`most_common`) with its count. -/
theorem C7_specialized_iff (agg : MainAgg) (pos : String) :
    (pos ∈ (specializedOf agg).map Prod.fst ↔
      pos ∈ keysOf agg.globalPosCounts ∧ specCond pos = true)
    ∧ specCond "phrasal verb" = true
    ∧ (pos ∈ (specializedOf agg).map Prod.fst →
        (pos, alGet agg.globalPosCounts pos) ∈ mostCommonList agg.globalPosCounts) := by
  have hiff : pos ∈ (specializedOf agg).map Prod.fst ↔
      pos ∈ keysOf agg.globalPosCounts ∧ specCond pos = true := by
    simp [specializedOf, sortedGlobalKeys, List.mem_filter, List.mem_insertionSort,
      List.mem_map]
  refine ⟨hiff, rfl, ?_⟩
  intro hmem
  have hk : pos ∈ keysOf agg.globalPosCounts := (hiff.mp hmem).1
  have := alGetD_mem agg.globalPosCounts pos 0 hk
  exact (List.mem_insertionSort _).mpr this

/-- Witness for C7 at a concrete state and key. -/
theorem C7_witness :
    ("phrasal verb" ∈ (specializedOf nvAgg).map Prod.fst ↔
      "phrasal verb" ∈ keysOf nvAgg.globalPosCounts ∧ specCond "phrasal verb" = true)
    ∧ specCond "phrasal verb" = true
    ∧ ("phrasal verb" ∈ (specializedOf nvAgg).map Prod.fst →
        ("phrasal verb", alGet nvAgg.globalPosCounts "phrasal verb")
          ∈ mostCommonList nvAgg.globalPosCounts) :=
  C7_specialized_iff nvAgg "phrasal verb"

/-! ### Claim C8 -/

/-- C8: every entry of the top-20 section displays at most 5 example words,
with no duplicates (deduplication through the set), in the Python
alphabetical (code-point) order regardless of collection order, and every
displayed word was taken from the first three `(word, file)` pairs recorded
for that POS by one of the three projects. -/
theorem C8_top20_examples (agg : MainAgg) (r : Report) (ent : Top20Entry)
    (h : buildReport agg = .ok r) (hent : ent ∈ r.top20) :
    ent.examples.length ≤ 5
    ∧ ent.examples.Nodup
    ∧ List.Sorted strLe ent.examples
    ∧ (∀ w ∈ ent.examples, ∃ name ∈ projNames,
        PyVal.str w ∈ take3Words agg ent.pos name) := by
  unfold buildReport at h
  split at h
  · cases h
  · rename_i t20 ht20
    split at h
    · cases h
    · rename_i mc hmc
      cases h
      obtain ⟨pos, hpos, hentEq⟩ := mapExcept_ok_mem (top20Entry agg) (topKeysOf agg)
        t20 ht20 ent hent
      unfold top20Entry at hentEq
      split at hentEq
      · cases hentEq
      · rename_i vs hvs
        split at hentEq
        · cases hentEq
        · rename_i ws hws
          cases hentEq
          have hvsws : vs = ws.map PyVal.str := mapExcept_strOfVal_ok vs ws hws
          have hlen5 : vs.length ≤ 5 :=
            gatherWords_len _ [] vs (by simp) hvs
          have hpw : vs.Pairwise (fun a b => pvEq a b = false) :=
            gatherWords_pairwise _ [] vs List.Pairwise.nil hvs
          have hsub := gatherWords_sub _ [] vs hvs
          refine ⟨?_, ?_, ?_, ?_⟩
          · show (List.insertionSort strLe ws).length ≤ 5
            rw [(List.perm_insertionSort strLe ws).length_eq]
            have hl : ws.length = vs.length := by rw [hvsws, List.length_map]
            omega
          · have hnd : ws.Nodup := map_str_pairwise_nodup ws (hvsws ▸ hpw)
            exact ((List.perm_insertionSort strLe ws).nodup_iff).mpr hnd
          · exact List.sorted_insertionSort strLe ws
          · intro w hw
            have hw2 : w ∈ ws := (List.mem_insertionSort strLe).mp hw
            have hwv : PyVal.str w ∈ vs := by
              rw [hvsws]; exact List.mem_map_of_mem PyVal.str hw2
            rcases hsub (PyVal.str w) hwv with h0 | ⟨l, hl, hvl⟩
            · cases h0
            · obtain ⟨name, hname, hEq⟩ := List.mem_map.mp hl
              exact ⟨name, hname, hEq ▸ hvl⟩

/-- The report of the three-copy noun/verb run, written out. -/
def nvReport : Report :=
  ⟨2, [("noun", 3), ("verb", 3)],
   [("occasional-wotd", 2, 2, [("noun", 1), ("verb", 1)]),
    ("wordbun", 2, 2, [("noun", 1), ("verb", 1)]),
    ("wordbug", 2, 2, [("noun", 1), ("verb", 1)])],
   [], [],
   [⟨"noun", 3, ["alpha"], [("occasional-wotd", 1), ("wordbun", 1), ("wordbug", 1)]⟩,
    ⟨"verb", 3, ["alpha"], [("occasional-wotd", 1), ("wordbun", 1), ("wordbug", 1)]⟩],
   6, ("noun", 3), 3,
   [("noun", [("occasional-wotd", 1), ("wordbun", 1), ("wordbug", 1)]),
    ("verb", [("occasional-wotd", 1), ("wordbun", 1), ("wordbug", 1)])],
   [("occasional-wotd", []), ("wordbun", []), ("wordbug", [])]⟩

/-- The first top-20 entry of that report. -/
def nvEnt : Top20Entry :=
  ⟨"noun", 3, ["alpha"], [("occasional-wotd", 1), ("wordbun", 1), ("wordbug", 1)]⟩

/-- Witness for C8 on the concrete three-copy noun/verb run. -/
theorem C8_witness :
    nvEnt.examples.length ≤ 5
    ∧ nvEnt.examples.Nodup
    ∧ List.Sorted strLe nvEnt.examples
    ∧ (∀ w ∈ nvEnt.examples, ∃ name ∈ projNames,
        PyVal.str w ∈ take3Words nvAgg nvEnt.pos name) :=
  C8_top20_examples nvAgg nvReport nvEnt rfl (by decide)

/-! ### Claim C9 -/

/-- C9: the cross-project section lists exactly the keys present in all
three project counters, alphabetically sorted, each with the three
per-project counts in project order; per project it lists exactly the keys
present in that project and absent from both others, alphabetically sorted;
and on three projects each containing only `"noun"` and `"verb"` the shared
section is exactly those two keys with count 1 per project. -/
theorem C9_cross_project_sections (agg : MainAgg) (pos : String) :
    (pos ∈ sharedPosKeys agg ↔
      (memKeys (projCounter agg "occasional-wotd") pos = true
        ∧ memKeys (projCounter agg "wordbun") pos = true
        ∧ memKeys (projCounter agg "wordbug") pos = true))
    ∧ List.Sorted strLe (sharedPosKeys agg)
    ∧ sharedPosReport agg =
        (sharedPosKeys agg).map
          (fun p => (p, projNames.map (fun n => (n, alGet (projCounter agg n) p))))
    ∧ (∀ name ∈ projNames,
        (pos ∈ uniqueKeysOf agg name ↔
          (memKeys (projCounter agg name) pos = true
            ∧ ∀ other ∈ othersOf name, memKeys (projCounter agg other) pos = false))
        ∧ List.Sorted strLe (uniqueKeysOf agg name))
    ∧ aggregate nvInput nvInput nvInput = ([], .ok nvAgg)
    ∧ sharedPosReport nvAgg =
        [("noun", [("occasional-wotd", 1), ("wordbun", 1), ("wordbug", 1)]),
         ("verb", [("occasional-wotd", 1), ("wordbun", 1), ("wordbug", 1)])] := by
  refine ⟨?_, List.sorted_insertionSort strLe _, rfl, ?_, rfl, rfl⟩
  · simp [sharedPosKeys, List.mem_insertionSort, List.mem_filter, List.mem_dedup,
      memKeys_iff, Bool.and_eq_true]
  · intro name _
    refine ⟨?_, List.sorted_insertionSort strLe _⟩
    simp [uniqueKeysOf, List.mem_insertionSort, List.mem_filter, List.mem_dedup,
      memKeys_iff, List.all_eq_true, Bool.not_eq_true']

/-- Witness for C9 at a concrete state and key. -/
theorem C9_witness :
    ("noun" ∈ sharedPosKeys nvAgg ↔
      (memKeys (projCounter nvAgg "occasional-wotd") "noun" = true
        ∧ memKeys (projCounter nvAgg "wordbun") "noun" = true
        ∧ memKeys (projCounter nvAgg "wordbug") "noun" = true))
    ∧ List.Sorted strLe (sharedPosKeys nvAgg)
    ∧ sharedPosReport nvAgg =
        (sharedPosKeys nvAgg).map
          (fun p => (p, projNames.map (fun n => (n, alGet (projCounter nvAgg n) p))))
    ∧ (∀ name ∈ projNames,
        ("noun" ∈ uniqueKeysOf nvAgg name ↔
          (memKeys (projCounter nvAgg name) "noun" = true
            ∧ ∀ other ∈ othersOf name, memKeys (projCounter nvAgg other) "noun" = false))
        ∧ List.Sorted strLe (uniqueKeysOf nvAgg name))
    ∧ aggregate nvInput nvInput nvInput = ([], .ok nvAgg)
    ∧ sharedPosReport nvAgg =
        [("noun", [("occasional-wotd", 1), ("wordbun", 1), ("wordbug", 1)]),
         ("verb", [("occasional-wotd", 1), ("wordbun", 1), ("wordbug", 1)])] :=
  C9_cross_project_sections nvAgg "noun"

end AnalyzePos
